import Mathlib

/-!
# PyTestGenie front end: the streaming task-status client

A shallow embedding of `frontend/src/App.jsx`: the React state cells of `App`,
the `handleSubmit` launcher and the `onmessage` / `onerror` handlers it installs on
the `EventSource` it opens, followed by the properties of the client.
`handleDownload` and the JSX only read the state and are not modelled, except for
the `disabled` attribute of the button, which gates `handleSubmit`.

Platform functions the component calls but does not define (`JSON.parse`, the
outcome of `axios.post`) enter as parameters.  A JavaScript exception is an
explicit value: `none` of an expression, `raised` of a handler.
-/

namespace PyTestGenie

/-! ## JavaScript values -/

/-- JavaScript values that can reach the component: what `JSON.parse` and an axios
response body can hold, and `undefined` for a missing property.  A number is carried
as the text `Number.prototype.toString` gives for it; the component does no
arithmetic. -/
inductive JSValue where
  | undefined
  | null
  | bool (b : Bool)
  | number (text : String)
  | string (s : String)
  | array (items : List JSValue)
  | object (members : List (String × JSValue))

/-- The property names the component reads: `obj.type`, `obj.line`, `obj.test_code`,
`obj.message` and `resp.data.task_id`.  None of them is defined on a built-in
prototype, so reading one is an own-property lookup. -/
inductive Field where
  | type
  | line
  | test_code
  | message
  | task_id

/-- The property name as written in the source. -/
def Field.key : Field → String
  | .type => "type"
  | .line => "line"
  | .test_code => "test_code"
  | .message => "message"
  | .task_id => "task_id"

namespace JSValue

/-- Whether the member list of an object has an own property `key`. -/
def hasOwn (key : String) : List (String × JSValue) → Bool
  | [] => false
  | (k, _) :: rest => k == key || hasOwn key rest

/-- Own-property lookup in the members of an object, in source order: when a key is
repeated the last occurrence wins, as in `JSON.parse`. -/
def lookupLast (key : String) : List (String × JSValue) → Option JSValue
  | [] => none
  | (k, v) :: rest =>
    match lookupLast key rest with
    | some later => some later
    | none => if k == key then some v else none

/-- Property read `v.f`.  `none` is the TypeError raised on `undefined` and `null`;
a missing property reads as `undefined`. -/
def getProp (v : JSValue) (f : Field) : Option JSValue :=
  match v with
  | undefined => none
  | null => none
  | object members => some ((lookupLast f.key members).getD undefined)
  | _ => some undefined

/-- Strict equality with a string literal, `v === lit`. -/
def strictEq (v : JSValue) (lit : String) : Bool :=
  match v with
  | string s => s == lit
  | _ => false

mutual
/-- ToString as applied by a template literal.  `none` is the TypeError of an object
whose own `toString` property (never callable in parsed JSON) hides the inherited
one; other objects give `[object Object]`; an array is joined with commas. -/
def toStr : JSValue → Option String
  | undefined => some "undefined"
  | null => some "null"
  | bool true => some "true"
  | bool false => some "false"
  | number text => some text
  | string s => some s
  | array items => (itemStrs items).map (String.intercalate ",")
  | object members => if hasOwn "toString" members then none else some "[object Object]"
termination_by structural v => v
/-- The pieces `Array.prototype.join` concatenates: the empty string for
`undefined` and `null`, ToString of the element otherwise. -/
def itemStrs : List JSValue → Option (List String)
  | [] => some []
  | x :: rest =>
    let piece : Option String :=
      match x with
      | undefined => some ""
      | null => some ""
      | bool b => toStr (bool b)
      | number t => toStr (number t)
      | string s => toStr (string s)
      | array xs => toStr (array xs)
      | object ms => toStr (object ms)
    match piece, itemStrs rest with
    | some a, some b => some (a :: b)
    | _, _ => none
termination_by structural l => l
end

end JSValue

open JSValue

/-! ## State -/

/-- The `useState` cells of `App` (lines 5-12). -/
structure State where
  code : String
  testCode : JSValue
  loading : Bool
  logs : List JSValue
  taskId : JSValue
  es : Option Nat
  useAI : Bool

/-- An `EventSource` object: the URL it was constructed with and whether `close()`
has been called on it (readyState CLOSED). -/
structure EventSource where
  url : String
  closed : Bool

/-- The component state together with what the component has done to the outside:
every `EventSource` constructed so far (oldest first; a source is referred to by its
position), every `axios.post(url, { code })` issued, every `alert` shown and the
number of `console.error` calls. -/
structure World where
  ui : State
  sources : List EventSource
  posts : List (String × String)
  alerts : List String
  consoleErrors : Nat

/-- The state of the first render: the initial values passed to `useState`. -/
def initialState : State :=
  { code := "", testCode := string "", loading := false, logs := [], taskId := null,
    es := none, useAI := false }

/-- The world before any interaction. -/
def initialWorld : World :=
  { ui := initialState, sources := [], posts := [], alerts := [], consoleErrors := 0 }

/-- The effect of `source.close()` on the source at position `src`. -/
def closeAt : Nat → List EventSource → List EventSource
  | _, [] => []
  | 0, c :: cs => { c with closed := true } :: cs
  | n + 1, c :: cs => c :: closeAt n cs

/-- Whether the source at position `src` exists and has not been closed. -/
def isOpenAt (src : Nat) (sources : List EventSource) : Bool :=
  match sources[src]? with
  | some c => !c.closed
  | none => false

/-- Number of sources that have not been closed. -/
def openCount (sources : List EventSource) : Nat :=
  sources.countP (fun c => !c.closed)

/-- The updater `(prev) => [...prev, x]` applied by `setLogs`. -/
def appendLog (x : JSValue) (w : World) : World :=
  { w with ui := { w.ui with logs := w.ui.logs ++ [x] } }

/-! ## The stream handlers (lines 39-66) -/

/-- How a piece of handler code ends.  `done w`: it returned and React applied the
state updates it queued, giving `w`.  `renderError`: it returned, and an updater
function it passed to a setter throws when React runs it; that exception belongs to
React's render, no `try` of the handler is around it, and the state is not followed
any further.  `raised`: an exception left the code. -/
inductive Outcome where
  | done (w : World)
  | renderError
  | raised

/-- Sequencing: go on with `next` from the world of a `done`; a `renderError` or a
`raised` ends the run. -/
def Outcome.andThen (r : Outcome) (next : World → Outcome) : Outcome :=
  match r with
  | .done w => next w
  | .renderError => .renderError
  | .raised => .raised

/-- The body of the `try` block of `source.onmessage` (lines 41-53) once
`JSON.parse(e.data)` has returned `obj`.  Reading `obj.type` is the one expression of
the block that can throw (on `null`); it is evaluated before any setter is called.
`obj.line` and the template literal of line 47 are written inside the updater passed
to `setLogs`, so React evaluates them after the block has completed: `obj.line`
cannot throw there (`obj` is not `null`), and when ToString of `obj.message` throws
the outcome is `renderError`, which the `catch` block never sees. -/
def onmessageTry (src : Nat) (obj : JSValue) (w : World) : Outcome :=
  match getProp obj .type with
  | none => .raised
  | some ty =>
    if strictEq ty "log" then
      .done (appendLog ((getProp obj .line).getD undefined) w)
    else if strictEq ty "result" then
      .done { w with ui := { w.ui with testCode := (getProp obj .test_code).getD undefined } }
    else if strictEq ty "error" then
      match toStr ((getProp obj .message).getD undefined) with
      | none => .renderError
      | some m => .done (appendLog (string ("ERROR: " ++ m)) w)
    else if strictEq ty "done" then
      .done { w with
        ui := { w.ui with loading := false, es := none }
        sources := closeAt src w.sources }
    else
      .done w

/-- The `catch` block of `source.onmessage` (lines 54-57): the raw data is appended;
its updater cannot throw. -/
def onmessageCatch (data : String) (w : World) : Outcome :=
  .done (appendLog (string data) w)

/-- The handler `source.onmessage` of the source at position `src` (lines 39-58),
run on an event whose `data` is `data`.  `parse` is `JSON.parse`, with `none` for
the SyntaxError it throws.  An exception raised inside the `try` block, by
`JSON.parse` or by the body, runs the `catch` block from the unchanged state. -/
def onmessage (parse : String → Option JSValue) (src : Nat) (data : String)
    (w : World) : Outcome :=
  match parse data with
  | none => onmessageCatch data w
  | some obj =>
    match onmessageTry src obj w with
    | .raised => onmessageCatch data w
    | .renderError => .renderError
    | .done w' => .done w'

/-- The handler `source.onerror` of the source at position `src` (lines 60-66).
Nothing in it can throw. -/
def onerror (src : Nat) (w : World) : World :=
  let w1 := { w with consoleErrors := w.consoleErrors + 1 }
  let w2 := appendLog (string "Connection to server lost.") w1
  { w2 with
    ui := { w2.ui with loading := false, es := none }
    sources := closeAt src w2.sources }

/-- What a source sends to its handlers: a message carrying `data`, or a transport
error. -/
inductive Incoming where
  | message (data : String)
  | failure

/-- Event dispatch by the browser for the source at position `src`: a source on
which `close()` has been called fires no event; an open one runs its handler. -/
def deliver (parse : String → Option JSValue) (src : Nat) (w : World)
    (ev : Incoming) : Outcome :=
  if isOpenAt src w.sources then
    match ev with
    | .message data => onmessage parse src data w
    | .failure => .done (onerror src w)
  else
    .done w

/-! ## The launcher (lines 14-73) -/

/-- The URL of the assisted-by-model endpoint (line 23). -/
def aiUrl : String := "http://127.0.0.1:5000/generate-ai-tests"

/-- The URL of the automatic endpoint (line 30). -/
def generateUrl : String := "http://127.0.0.1:5000/generate-tests"

/-- The fixed part of the template literal of line 35. -/
def streamUrlBase : String := "http://127.0.0.1:5000/generate-tests/stream/"

/-- The four setter calls of lines 15-18. -/
def resetSession (s : State) : State :=
  { s with loading := true, testCode := string "", logs := [], taskId := null }

/-- The synchronous part of `handleSubmit`, up to the `await` (lines 15-23 or
15-30): the session is reset, then the one POST of the chosen mode is issued with the
current source text. -/
def handleSubmitStart (w : World) : World :=
  let w1 := { w with ui := resetSession w.ui }
  { w1 with
    posts := w1.posts ++ [(if w.ui.useAI then aiUrl else generateUrl, w.ui.code)] }

/-- The `catch` block of `handleSubmit` (lines 68-72). -/
def handleSubmitCatch (w : World) : World :=
  { w with
    consoleErrors := w.consoleErrors + 1
    alerts := w.alerts ++ ["Error starting generation task"]
    ui := { w.ui with loading := false } }

/-- The rest of `handleSubmit` after the `await`.  `ai` is the value of `useAI`
the call was made with; `resp` is the outcome of the POST: `none` when the promise
is rejected (network failure or a status outside 2xx), `some data` when it resolves
with `resp.data = data`.  Constructing the `EventSource` does not throw: the URL is
absolute whatever text follows its fixed part.  Every point of the `try` block that
can throw (the rejected POST, reading a property of `resp.data`, the template of
line 35) continues with the `catch` block, which cannot throw, so the call always
completes. -/
def handleSubmitResume (ai : Bool) (resp : Option JSValue) (w : World) : World :=
  match resp with
  | none => handleSubmitCatch w
  | some data =>
    if ai then
      match getProp data .test_code with
      | none => handleSubmitCatch w
      | some t => { w with ui := { w.ui with testCode := t, loading := false } }
    else
      match getProp data .task_id with
      | none => handleSubmitCatch w
      | some tid =>
        let w1 := { w with ui := { w.ui with taskId := tid } }
        match toStr tid with
        | none => handleSubmitCatch w1
        | some t =>
          { w1 with
            sources := w1.sources ++ [{ url := streamUrlBase ++ t, closed := false }]
            ui := { w1.ui with es := some w1.sources.length } }

/-- One whole call of `handleSubmit` whose POST has outcome `resp`. -/
def handleSubmit (resp : Option JSValue) (w : World) : World :=
  handleSubmitResume w.ui.useAI resp (handleSubmitStart w)

/-! ## Well-formed stream events -/

/-- The events of the stream endpoint, as named by their `type` field, with the
variant-specific field each one carries. -/
inductive StreamEvent where
  | log (line : String)
  | result (test_code : String)
  | error (message : String)
  | done

/-- The parsed payload `obj` is the well-formed event `ev`: its `type` is the tag of
`ev` and its variant-specific field is the string `ev` carries. -/
def Encodes (obj : JSValue) : StreamEvent → Prop
  | .log l => getProp obj .type = some (string "log") ∧ getProp obj .line = some (string l)
  | .result t =>
    getProp obj .type = some (string "result") ∧ getProp obj .test_code = some (string t)
  | .error m =>
    getProp obj .type = some (string "error") ∧ getProp obj .message = some (string m)
  | .done => getProp obj .type = some (string "done")

/-- The payload text `data` parses to the well-formed event `ev`. -/
def Carries (parse : String → Option JSValue) (data : String) (ev : StreamEvent) : Prop :=
  ∃ obj, parse data = some obj ∧ Encodes obj ev

/-- A `log` or `error` event, the two kinds that add a line to the log. -/
inductive Notice where
  | log (line : String)
  | error (message : String)

/-- The stream event a notice stands for. -/
def Notice.event : Notice → StreamEvent
  | .log l => .log l
  | .error m => .error m

/-- The line the handler appends for a notice: `line` itself, or `message` behind the
literal text of the template of line 47. -/
def Notice.text : Notice → String
  | .log l => l
  | .error m => "ERROR: " ++ m

/-- The payload of the last `result` event of a sequence, if there is one. -/
def lastResult : List StreamEvent → Option String
  | [] => none
  | ev :: rest =>
    match lastResult rest with
    | some t => some t
    | none =>
      match ev with
      | .result t => some t
      | _ => none

/-- The handler `source.onmessage` of source `src` run on the payloads `ds` in the
order received. -/
def onmessageAll (parse : String → Option JSValue) (src : Nat) :
    List String → World → Outcome
  | [], w => .done w
  | d :: ds, w => (onmessage parse src d w).andThen (onmessageAll parse src ds)

/-- The events `evs` dispatched by source `src`, in order. -/
def deliverAll (parse : String → Option JSValue) (src : Nat) :
    List Incoming → World → Outcome
  | [], w => .done w
  | ev :: evs, w => (deliver parse src w ev).andThen (deliverAll parse src evs)

/-! ## The page as a transition system -/

/-- A state of the running page: the world, and the call of `handleSubmit` that is
suspended at its `await`, if any, with the value of `useAI` it was made with. -/
structure Config where
  world : World
  awaiting : Option Bool

/-- The page before any interaction. -/
def initialConfig : Config := { world := initialWorld, awaiting := none }

/-- One step of the page.  The textarea and the radio buttons write `code` and
`useAI` (lines 92, 101, 110); the button calls `handleSubmit` and is disabled while
`loading` (line 114); the pending POST settles; a source dispatches an event. -/
inductive Step (parse : String → Option JSValue) : Config → Config → Prop
  | editCode (c : Config) (text : String) :
      Step parse c { c with world := { c.world with ui := { c.world.ui with code := text } } }
  | chooseMode (c : Config) (b : Bool) :
      Step parse c { c with world := { c.world with ui := { c.world.ui with useAI := b } } }
  | click (c : Config) (enabled : c.world.ui.loading = false) :
      Step parse c
        { world := handleSubmitStart c.world, awaiting := some c.world.ui.useAI }
  | settle (c : Config) (ai : Bool) (resp : Option JSValue) (pending : c.awaiting = some ai) :
      Step parse c { world := handleSubmitResume ai resp c.world, awaiting := none }
  | incoming (c : Config) (src : Nat) (ev : Incoming) (w' : World)
      (ran : deliver parse src c.world ev = .done w') :
      Step parse c { c with world := w' }

/-- The states the page can reach from its first render. -/
def Reachable (parse : String → Option JSValue) (c : Config) : Prop :=
  Relation.ReflTransGen (Step parse) initialConfig c

/-! ## Worked inputs -/

/-- The world of the automatic scenario once the stream is open: the first
submission, answered with task id `abc123`. -/
def streamingWorld : World :=
  handleSubmit (some (object [("task_id", string "abc123")])) initialWorld

/-- The payload of the `log` event of the scenario. -/
def logPayload : String := "\x7b\"type\":\"log\",\"line\":\"collecting...\"\x7d"

/-- The payload of the `result` event of the scenario. -/
def resultPayload : String :=
  "\x7b\"type\":\"result\",\"test_code\":\"def test_y(): pass\"\x7d"

/-- The payload of an `error` event. -/
def errorPayload : String := "\x7b\"type\":\"error\",\"message\":\"boom\"\x7d"

/-- The payload of the `done` event of the scenario. -/
def donePayload : String := "\x7b\"type\":\"done\"\x7d"

/-- The payload of an event whose `type` is none of the four. -/
def otherPayload : String := "\x7b\"type\":\"other\"\x7d"

/-- The payload of an `error` event whose `message` is an object with an own
`toString` property, which ToString cannot convert. -/
def unprintablePayload : String :=
  "\x7b\"type\":\"error\",\"message\":\x7b\"toString\":1\x7d\x7d"

/-- The value of `JSON.parse` on the payloads of the worked examples: the events
above, `42` and `null`.  `none` is the SyntaxError thrown on `not json`, the one
unparseable payload used. -/
def sampleParse (data : String) : Option JSValue :=
  if data = unprintablePayload then
    some (object [("type", string "error"), ("message", object [("toString", number "1")])])
  else
  if data = logPayload then
    some (object [("type", string "log"), ("line", string "collecting...")])
  else if data = resultPayload then
    some (object [("type", string "result"), ("test_code", string "def test_y(): pass")])
  else if data = errorPayload then
    some (object [("type", string "error"), ("message", string "boom")])
  else if data = donePayload then
    some (object [("type", string "done")])
  else if data = otherPayload then
    some (object [("type", string "other")])
  else if data = "42" then
    some (number "42")
  else if data = "null" then
    some null
  else
    none

/-- The world at the end of the automatic scenario, after `log`, `result` and `done`:
one line logged, the artifact stored, the source closed. -/
def finishedWorld : World :=
  { streamingWorld with
    ui := { streamingWorld.ui with
      logs := [string "collecting..."], testCode := string "def test_y(): pass",
      loading := false, es := none }
    sources := closeAt 0 streamingWorld.sources }

/-- The state of the assisted scenario before the submission: the first render with
the assisted mode chosen and a source text typed in. -/
def assistedWorld : World :=
  { initialWorld with ui := { initialState with useAI := true, code := "def f(): pass" } }

/-! ## The invariant of the page -/

/-- What holds in every state the page can reach: at most one source is open; when
`loading` is false no source is open, no source is stored in `es` and no call of
`handleSubmit` is suspended; while a call is suspended no source is open and `es` is
`null`. -/
def Inv (c : Config) : Prop :=
  openCount c.world.sources ≤ 1 ∧
  (c.world.ui.loading = false →
    openCount c.world.sources = 0 ∧ c.world.ui.es = none ∧ c.awaiting = none) ∧
  (∀ ai, c.awaiting = some ai → openCount c.world.sources = 0 ∧ c.world.ui.es = none)

/-! ## The handler on well-formed events -/

theorem onmessage_log (parse : String → Option JSValue) (src : Nat) (d l : String)
    (w : World) (h : Carries parse d (.log l)) :
    onmessage parse src d w = .done (appendLog (string l) w) := by
  obtain ⟨obj, hp, ht, hl⟩ := h
  simp [onmessage, hp, onmessageTry, ht, hl, strictEq]

theorem onmessage_result (parse : String → Option JSValue) (src : Nat) (d t : String)
    (w : World) (h : Carries parse d (.result t)) :
    onmessage parse src d w = .done { w with ui := { w.ui with testCode := string t } } := by
  obtain ⟨obj, hp, ht, hl⟩ := h
  simp [onmessage, hp, onmessageTry, ht, hl, strictEq]

theorem onmessage_error (parse : String → Option JSValue) (src : Nat) (d m : String)
    (w : World) (h : Carries parse d (.error m)) :
    onmessage parse src d w = .done (appendLog (string ("ERROR: " ++ m)) w) := by
  obtain ⟨obj, hp, ht, hl⟩ := h
  simp [onmessage, hp, onmessageTry, ht, hl, strictEq, toStr]

theorem onmessage_done (parse : String → Option JSValue) (src : Nat) (d : String)
    (w : World) (h : Carries parse d .done) :
    onmessage parse src d w =
      .done { w with
        ui := { w.ui with loading := false, es := none }
        sources := closeAt src w.sources } := by
  obtain ⟨obj, hp, ht⟩ := h
  have ht' : getProp obj .type = some (string "done") := ht
  simp [onmessage, hp, onmessageTry, ht', strictEq]

theorem onmessage_notice (parse : String → Option JSValue) (src : Nat) (d : String)
    (n : Notice) (w : World) (h : Carries parse d n.event) :
    onmessage parse src d w = .done (appendLog (string n.text) w) := by
  cases n with
  | log l => exact onmessage_log parse src d l w h
  | error m => exact onmessage_error parse src d m w h

theorem appendLog_logs (x : JSValue) (w : World) (more : List JSValue) :
    { appendLog x w with
        ui := { (appendLog x w).ui with logs := (appendLog x w).ui.logs ++ more } } =
      { w with ui := { w.ui with logs := w.ui.logs ++ x :: more } } := by
  simp [appendLog]

theorem onmessageAll_cons (parse : String → Option JSValue) (src : Nat) (d : String)
    (ds : List String) (w : World) :
    onmessageAll parse src (d :: ds) w =
      (onmessage parse src d w).andThen (onmessageAll parse src ds) :=
  rfl

theorem onmessage_testCode (parse : String → Option JSValue) (src : Nat) (d : String)
    (ev : StreamEvent) (w : World) (h : Carries parse d ev) :
    ∃ w', onmessage parse src d w = .done w' ∧
      w'.ui.testCode =
        match ev with
        | .result t => string t
        | _ => w.ui.testCode := by
  cases ev with
  | log l => exact ⟨_, onmessage_log parse src d l w h, rfl⟩
  | result t => exact ⟨_, onmessage_result parse src d t w h, rfl⟩
  | error m => exact ⟨_, onmessage_error parse src d m w h, rfl⟩
  | done => exact ⟨_, onmessage_done parse src d w h, rfl⟩

theorem onmessageAll_testCode (parse : String → Option JSValue) (src : Nat)
    (ds : List String) (evs : List StreamEvent) (w : World)
    (h : List.Forall₂ (Carries parse) ds evs) :
    ∃ w', onmessageAll parse src ds w = .done w' ∧
      w'.ui.testCode = ((lastResult evs).map string).getD w.ui.testCode := by
  induction h generalizing w with
  | nil => exact ⟨w, rfl, rfl⟩
  | @cons d ev ds evs hd _ ih =>
    obtain ⟨w1, hw1, ht1⟩ := onmessage_testCode parse src d ev w hd
    obtain ⟨w2, hw2, ht2⟩ := ih w1
    refine ⟨w2, ?_, ?_⟩
    · rw [onmessageAll_cons, hw1]; exact hw2
    · rw [ht2, ht1]
      cases hl : lastResult evs with
      | some t => simp [lastResult, hl]
      | none => cases ev <;> simp [lastResult, hl]

/-! ## The stream consumer -/

/-- C1: for every starting state and every sequence of payloads that are well-formed
`log` and `error` events, running `onmessage` over the sequence completes and changes
nothing but the log list, which becomes the starting logs followed by one line per
event in receive order: `line` for a `log`, `ERROR: ` followed by `message` for an
`error`. -/
theorem onmessageAll_notices (parse : String → Option JSValue) (src : Nat)
    (ds : List String) (ns : List Notice) (w : World)
    (h : List.Forall₂ (fun d n => Carries parse d n.event) ds ns) :
    onmessageAll parse src ds w =
      .done { w with
        ui := { w.ui with logs := w.ui.logs ++ ns.map (fun n => string n.text) } } := by
  induction h generalizing w with
  | nil => simp [onmessageAll]
  | @cons d n ds ns hd _ ih =>
    rw [onmessageAll_cons, onmessage_notice parse src d n w hd]
    simp only [Outcome.andThen]
    rw [ih, appendLog_logs]
    rfl

/-- C1 at a `log` followed by an `error` in the streaming world of the scenario. -/
theorem onmessageAll_notices_witness :
    List.Forall₂ (fun d n => Carries sampleParse d (Notice.event n))
        [logPayload, errorPayload] [Notice.log "collecting...", Notice.error "boom"] ∧
      onmessageAll sampleParse 0 [logPayload, errorPayload] streamingWorld =
        Outcome.done
          { streamingWorld with
            ui := { streamingWorld.ui with
              logs := [string "collecting...", string "ERROR: boom"] } } ∧
      streamingWorld.ui.loading = true :=
  have h : List.Forall₂ (fun d n => Carries sampleParse d (Notice.event n))
      [logPayload, errorPayload] [Notice.log "collecting...", Notice.error "boom"] :=
    List.Forall₂.cons ⟨_, rfl, rfl, rfl⟩ (List.Forall₂.cons ⟨_, rfl, rfl, rfl⟩ List.Forall₂.nil)
  ⟨h, (onmessageAll_notices sampleParse 0 _ _ streamingWorld h).trans rfl, rfl⟩

/-- C2: for every sequence of well-formed events that contains a `result` event,
running `onmessage` over the sequence completes with the artifact `testCode` equal to
the `test_code` of the last `result` event, whatever events surround it; and a
`result` event changes nothing but the artifact, so the log list and the in-progress
flag stay as they were. -/
theorem onmessageAll_last_result (parse : String → Option JSValue) (src : Nat)
    (ds : List String) (evs : List StreamEvent) (w : World) (t : String)
    (h : List.Forall₂ (Carries parse) ds evs) (hr : lastResult evs = some t) :
    (∃ w', onmessageAll parse src ds w = .done w' ∧ w'.ui.testCode = string t) ∧
      ∀ (d u : String) (v : World), Carries parse d (.result u) →
        ∃ v', onmessage parse src d v = .done v' ∧ v'.ui.testCode = string u ∧
          v'.ui.logs = v.ui.logs ∧ v'.ui.loading = v.ui.loading := by
  refine ⟨?_, ?_⟩
  · obtain ⟨w', hw, ht⟩ := onmessageAll_testCode parse src ds evs w h
    exact ⟨w', hw, by rw [ht, hr]; rfl⟩
  · intro d u v hd
    exact ⟨_, onmessage_result parse src d u v hd, rfl, rfl, rfl⟩

/-- C2 at the scenario of the specification: `log`, `result`, `done`. -/
theorem onmessageAll_last_result_witness :
    List.Forall₂ (Carries sampleParse) [logPayload, resultPayload, donePayload]
        [StreamEvent.log "collecting...", StreamEvent.result "def test_y(): pass",
          StreamEvent.done] ∧
      onmessageAll sampleParse 0 [logPayload, resultPayload, donePayload] streamingWorld =
        Outcome.done finishedWorld ∧
      finishedWorld.ui.testCode = string "def test_y(): pass" ∧
      finishedWorld.ui.logs = [string "collecting..."] ∧
      finishedWorld.ui.loading = false :=
  have h : List.Forall₂ (Carries sampleParse) [logPayload, resultPayload, donePayload]
      [StreamEvent.log "collecting...", StreamEvent.result "def test_y(): pass",
        StreamEvent.done] :=
    List.Forall₂.cons ⟨_, rfl, rfl, rfl⟩
      (List.Forall₂.cons ⟨_, rfl, rfl, rfl⟩ (List.Forall₂.cons ⟨_, rfl, rfl⟩ List.Forall₂.nil))
  have hrun : onmessageAll sampleParse 0 [logPayload, resultPayload, donePayload]
      streamingWorld = Outcome.done finishedWorld := rfl
  ⟨h, hrun,
    by
      obtain ⟨w', hw, ht⟩ :=
        (onmessageAll_last_result sampleParse 0 _ _ streamingWorld _ h rfl).1
      rw [hrun] at hw
      cases hw
      exact ht,
    rfl, rfl⟩

/-! ## Sources -/

theorem isOpenAt_closeAt (src : Nat) (l : List EventSource) :
    isOpenAt src (closeAt src l) = false := by
  induction l generalizing src with
  | nil => simp [closeAt, isOpenAt]
  | cons c cs ih =>
    cases src with
    | zero => simp [closeAt, isOpenAt]
    | succ n =>
      have := ih n
      simpa [closeAt, isOpenAt] using this

theorem openCount_closeAt (src : Nat) (l : List EventSource)
    (h : isOpenAt src l = true) : openCount (closeAt src l) + 1 = openCount l := by
  induction l generalizing src with
  | nil => simp [isOpenAt] at h
  | cons c cs ih =>
    cases src with
    | zero =>
      have hc : c.closed = false := by simpa [isOpenAt] using h
      simp [closeAt, openCount, List.countP_cons, hc]
    | succ n =>
      have h' : isOpenAt n cs = true := by simpa [isOpenAt] using h
      have := ih n h'
      simp only [closeAt, openCount, List.countP_cons] at this ⊢
      omega

theorem isOpenAt_of_openCount_zero (src : Nat) (l : List EventSource)
    (h : openCount l = 0) : isOpenAt src l = false := by
  induction l generalizing src with
  | nil => simp [isOpenAt]
  | cons c cs ih =>
    have hc : c.closed = true := by
      cases hc : c.closed with
      | true => rfl
      | false => simp [openCount, List.countP_cons, hc] at h
    have hcs : openCount cs = 0 := by
      simpa [openCount, List.countP_cons, hc] using h
    cases src with
    | zero => simp [isOpenAt, hc]
    | succ n =>
      have := ih n hcs
      simpa [isOpenAt] using this

theorem openCount_append_open (l : List EventSource) (u : String) :
    openCount (l ++ [{ url := u, closed := false }]) = openCount l + 1 := by
  simp [openCount, List.countP_append]

theorem deliverAll_closed (parse : String → Option JSValue) (src : Nat)
    (evs : List Incoming) (w : World) (h : isOpenAt src w.sources = false) :
    deliverAll parse src evs w = .done w := by
  induction evs with
  | nil => rfl
  | cons ev evs ih =>
    have hstep : deliver parse src w ev = .done w := by simp [deliver, h]
    simp only [deliverAll, hstep, Outcome.andThen]
    exact ih

theorem onmessageTry_shape (src : Nat) (obj : JSValue) (w w' : World)
    (h : onmessageTry src obj w = .done w') :
    (w'.sources = w.sources ∧ w'.ui.loading = w.ui.loading ∧ w'.ui.es = w.ui.es) ∨
      (w'.sources = closeAt src w.sources ∧ w'.ui.loading = false ∧ w'.ui.es = none) := by
  unfold onmessageTry at h
  split at h
  · exact absurd h (by simp)
  · split at h
    · cases h; exact Or.inl ⟨rfl, rfl, rfl⟩
    · split at h
      · cases h; exact Or.inl ⟨rfl, rfl, rfl⟩
      · split at h
        · split at h
          · exact absurd h (by simp)
          · cases h; exact Or.inl ⟨rfl, rfl, rfl⟩
        · split at h
          · cases h; exact Or.inr ⟨rfl, rfl, rfl⟩
          · cases h; exact Or.inl ⟨rfl, rfl, rfl⟩

theorem onmessage_shape (parse : String → Option JSValue) (src : Nat) (d : String)
    (w w' : World) (h : onmessage parse src d w = .done w') :
    (w'.sources = w.sources ∧ w'.ui.loading = w.ui.loading ∧ w'.ui.es = w.ui.es) ∨
      (w'.sources = closeAt src w.sources ∧ w'.ui.loading = false ∧ w'.ui.es = none) := by
  unfold onmessage at h
  split at h
  · cases h; exact Or.inl ⟨rfl, rfl, rfl⟩
  · split at h
    · cases h; exact Or.inl ⟨rfl, rfl, rfl⟩
    · exact absurd h (by simp)
    · next w1 hw1 =>
      cases h
      exact onmessageTry_shape src _ w w' hw1

theorem deliver_shape (parse : String → Option JSValue) (src : Nat) (ev : Incoming)
    (w w' : World) (h : deliver parse src w ev = .done w') :
    w' = w ∨
      (isOpenAt src w.sources = true ∧
        ((w'.sources = w.sources ∧ w'.ui.loading = w.ui.loading ∧ w'.ui.es = w.ui.es) ∨
          (w'.sources = closeAt src w.sources ∧ w'.ui.loading = false ∧
            w'.ui.es = none))) := by
  unfold deliver at h
  cases ho : isOpenAt src w.sources with
  | false =>
    simp only [ho, Bool.false_eq_true, if_false] at h
    cases h
    exact Or.inl rfl
  | true =>
    simp only [ho, if_true] at h
    refine Or.inr ⟨rfl, ?_⟩
    cases ev with
    | message data => exact onmessage_shape parse src data w w' h
    | failure => cases h; exact Or.inr ⟨rfl, rfl, rfl⟩

theorem handleSubmitResume_shape (ai : Bool) (resp : Option JSValue) (w : World) :
    ((handleSubmitResume ai resp w).sources = w.sources ∧
        (handleSubmitResume ai resp w).ui.loading = false ∧
        (handleSubmitResume ai resp w).ui.es = w.ui.es) ∨
      (∃ u, (handleSubmitResume ai resp w).sources =
            w.sources ++ [{ url := u, closed := false }] ∧
        (handleSubmitResume ai resp w).ui.loading = w.ui.loading ∧
        ai = false) := by
  unfold handleSubmitResume
  cases resp with
  | none => exact Or.inl ⟨rfl, rfl, rfl⟩
  | some data =>
    cases ai with
    | true =>
      simp only [if_true]
      cases getProp data .test_code with
      | none => exact Or.inl ⟨rfl, rfl, rfl⟩
      | some t => exact Or.inl ⟨rfl, rfl, rfl⟩
    | false =>
      simp only [Bool.false_eq_true, if_false]
      cases getProp data .task_id with
      | none => exact Or.inl ⟨rfl, rfl, rfl⟩
      | some tid =>
        simp only
        cases toStr tid with
        | none => exact Or.inl ⟨rfl, rfl, rfl⟩
        | some t => exact Or.inr ⟨_, rfl, rfl, trivial⟩

theorem inv_initial : Inv initialConfig := by
  refine ⟨by decide, fun _ => ⟨by decide, rfl, rfl⟩, fun ai h => ?_⟩
  simp [initialConfig] at h

theorem inv_step (parse : String → Option JSValue) (c c' : Config) (hinv : Inv c)
    (hs : Step parse c c') : Inv c' := by
  obtain ⟨hle, hidle, hwait⟩ := hinv
  cases hs with
  | editCode text => exact ⟨hle, hidle, hwait⟩
  | chooseMode b => exact ⟨hle, hidle, hwait⟩
  | click enabled =>
    obtain ⟨h0, hes, _⟩ := hidle enabled
    have hs : (handleSubmitStart c.world).sources = c.world.sources := rfl
    have he : (handleSubmitStart c.world).ui.es = c.world.ui.es := rfl
    have hl : (handleSubmitStart c.world).ui.loading = true := rfl
    refine ⟨by simp only [hs]; exact hle, fun h => ?_, fun ai _ => ?_⟩
    · simp only [hl] at h; exact absurd h (by decide)
    · simp only [hs, he]; exact ⟨h0, hes⟩
  | settle ai resp pending =>
    obtain ⟨h0, hes⟩ := hwait ai pending
    have hload : c.world.ui.loading = true := by
      cases hl : c.world.ui.loading with
      | true => rfl
      | false =>
        have := (hidle hl).2.2
        rw [pending] at this
        exact absurd this (by simp)
    rcases handleSubmitResume_shape ai resp c.world with ⟨hs, hl, he⟩ | ⟨u, hs, hl, _⟩
    · refine ⟨?_, fun _ => ⟨?_, ?_, rfl⟩, fun a h => ?_⟩
      · simp only [hs]; exact hle
      · simp only [hs]; exact h0
      · simp only [he]; exact hes
      · simp at h
    · refine ⟨?_, fun h => ?_, fun a h => ?_⟩
      · simp only [hs, openCount_append_open, h0]; exact le_refl 1
      · simp only [hl, hload] at h; exact absurd h (by decide)
      · simp at h
  | incoming src ev w' ran =>
    rcases deliver_shape parse src ev c.world w' ran with hsame | ⟨hopen, hcase⟩
    · simp only [hsame]; exact ⟨hle, hidle, hwait⟩
    · have hpos : openCount c.world.sources ≠ 0 := by
        intro h0
        rw [isOpenAt_of_openCount_zero src _ h0] at hopen
        exact absurd hopen (by decide)
      have hload : c.world.ui.loading = true := by
        cases hl : c.world.ui.loading with
        | true => rfl
        | false => exact absurd (hidle hl).1 hpos
      have hnowait : c.awaiting = none := by
        cases ha : c.awaiting with
        | none => rfl
        | some ai => exact absurd (hwait ai ha).1 hpos
      rcases hcase with ⟨hs, hl, he⟩ | ⟨hs, hl, he⟩
      · refine ⟨?_, fun h => ?_, fun a h => ?_⟩
        · simp only [hs]; exact hle
        · simp only [hl, hload] at h; exact absurd h (by decide)
        · simp only [hnowait] at h; exact absurd h (by simp)
      · have hclose := openCount_closeAt src c.world.sources hopen
        have hzero : openCount (closeAt src c.world.sources) = 0 := by omega
        refine ⟨?_, fun _ => ⟨?_, ?_, hnowait⟩, fun a h => ?_⟩
        · simp only [hs, hzero]; exact Nat.zero_le 1
        · simp only [hs]; exact hzero
        · simp only [he]
        · simp only [hnowait] at h; exact absurd h (by simp)

theorem inv_reachable (parse : String → Option JSValue) (c : Config)
    (h : Reachable parse c) : Inv c := by
  induction h with
  | refl => exact inv_initial
  | tail _ hstep ih => exact inv_step parse _ _ ih hstep

theorem reachable_streamingWorld :
    Reachable sampleParse { world := streamingWorld, awaiting := none } :=
  Relation.ReflTransGen.tail
    (Relation.ReflTransGen.tail Relation.ReflTransGen.refl (Step.click initialConfig rfl))
    (Step.settle _ false (some (object [("task_id", string "abc123")])) rfl)

theorem all_closed_after_close (parse : String → Option JSValue) (c : Config)
    (hr : Reachable parse c) (src j : Nat) (hopen : isOpenAt src c.world.sources = true) :
    isOpenAt j (closeAt src c.world.sources) = false := by
  have hle := (inv_reachable parse c hr).1
  have hclose := openCount_closeAt src c.world.sources hopen
  exact isOpenAt_of_openCount_zero j _ (by omega)

theorem reachable_finishedWorld :
    Reachable sampleParse { world := finishedWorld, awaiting := none } :=
  Relation.ReflTransGen.tail
    (Relation.ReflTransGen.tail
      (Relation.ReflTransGen.tail reachable_streamingWorld
        (Step.incoming _ 0 (.message logPayload) _ rfl))
      (Step.incoming _ 0 (.message resultPayload) _ rfl))
    (Step.incoming _ 0 (.message donePayload) finishedWorld rfl)

/-- C3: a `done` event sets `loading` to false, closes the source it arrived on and
sets `es` to `null`, changing nothing else; after it the closed source dispatches no
event, so whatever it would still send leaves the world as it is; and in a reachable
state of the page no other source is open either, so no event of any source changes
the world afterwards. -/
theorem onmessage_done_terminal (parse : String → Option JSValue) (src : Nat) (d : String)
    (w : World) (h : Carries parse d .done) :
    ∃ w', onmessage parse src d w = .done w' ∧
      w' = { w with
        ui := { w.ui with loading := false, es := none }
        sources := closeAt src w.sources } ∧
      isOpenAt src w'.sources = false ∧
      (∀ evs : List Incoming, deliverAll parse src evs w' = .done w') ∧
      (∀ awaiting, Reachable parse { world := w, awaiting := awaiting } →
        isOpenAt src w.sources = true →
        ∀ (j : Nat) (evs : List Incoming), deliverAll parse j evs w' = .done w') := by
  have hclosed : isOpenAt src (closeAt src w.sources) = false :=
    isOpenAt_closeAt src w.sources
  refine ⟨_, onmessage_done parse src d w h, rfl, hclosed,
    fun evs => deliverAll_closed parse src evs _ hclosed, ?_⟩
  intro awaiting hr hopen j evs
  apply deliverAll_closed
  exact all_closed_after_close parse _ hr src j hopen

/-- C3 at the `done` event of the scenario, followed by a `log` event and a transport
error that the closed source no longer dispatches. -/
theorem onmessage_done_terminal_witness :
    Carries sampleParse donePayload StreamEvent.done ∧
      ∃ w', onmessage sampleParse 0 donePayload streamingWorld = Outcome.done w' ∧
        w'.ui.loading = false ∧ w'.ui.es = none ∧
        isOpenAt 0 w'.sources = false ∧
        deliverAll sampleParse 0 [Incoming.message logPayload, Incoming.failure] w' =
          Outcome.done w' := by
  have h : Carries sampleParse donePayload StreamEvent.done := ⟨_, rfl, rfl⟩
  obtain ⟨w', hrun, hw, hclosed, hsame, _⟩ :=
    onmessage_done_terminal sampleParse 0 donePayload streamingWorld h
  exact ⟨h, w', hrun, by rw [hw], by rw [hw], hclosed, hsame _⟩

/-- C4: in every state, a transport error on a source sets `loading` to false, appends
the one line `Connection to server lost.` after the lines already logged, leaves the
artifact as it is, closes that source and no other, and sets `es` to `null`; the
closed source dispatches nothing afterwards. -/
theorem onerror_terminal (parse : String → Option JSValue) (src : Nat) (w : World) :
    (onerror src w).ui.loading = false ∧
      (onerror src w).ui.logs = w.ui.logs ++ [string "Connection to server lost."] ∧
      (onerror src w).ui.testCode = w.ui.testCode ∧
      (onerror src w).sources = closeAt src w.sources ∧
      isOpenAt src (onerror src w).sources = false ∧
      (onerror src w).ui.es = none ∧
      (∀ evs : List Incoming,
        deliverAll parse src evs (onerror src w) = .done (onerror src w)) := by
  have hclosed : isOpenAt src (onerror src w).sources = false :=
    isOpenAt_closeAt src w.sources
  exact ⟨rfl, rfl, rfl, rfl, hclosed, rfl,
    fun evs => deliverAll_closed parse src evs _ hclosed⟩

/-- C5: a payload on which `JSON.parse` throws does not make the handler raise; it is
appended as it is, as the new last log line, and nothing else changes: the artifact,
`loading`, `es` and the sources stay as they were. -/
theorem onmessage_unparseable (parse : String → Option JSValue) (src : Nat)
    (data : String) (w : World) (h : parse data = none) :
    onmessage parse src data w =
      .done { w with ui := { w.ui with logs := w.ui.logs ++ [string data] } } := by
  simp [onmessage, h, onmessageCatch, appendLog]

/-- C5 at the payload `not json` of the specification. -/
theorem onmessage_unparseable_witness :
    sampleParse "not json" = none ∧
      onmessage sampleParse 0 "not json" streamingWorld =
        Outcome.done
          { streamingWorld with
            ui := { streamingWorld.ui with logs := [string "not json"] } } ∧
      streamingWorld.ui.loading = true ∧
      isOpenAt 0 streamingWorld.sources = true :=
  ⟨rfl, (onmessage_unparseable sampleParse 0 "not json" streamingWorld rfl).trans rfl,
    rfl, rfl⟩

/-- The template of line 47 is evaluated by React, outside the handler: on an `error`
event whose message ToString cannot convert, the handler returns and the render
fails; the `catch` block does not run. -/
theorem onmessage_unprintable :
    onmessage sampleParse 0 unprintablePayload streamingWorld = Outcome.renderError :=
  rfl

/-- C6, refuted as stated: the payloads `42` and an event of type `other` parse, are
no well-formed event of the four types, and the handler completes leaving the world
exactly as it was; no line is added for them. -/
theorem onmessage_unknown_vanishes :
    (¬ ∃ ev, Carries sampleParse "42" ev) ∧
      onmessage sampleParse 0 "42" streamingWorld = Outcome.done streamingWorld ∧
      streamingWorld.ui.logs ≠ streamingWorld.ui.logs ++ [string "42"] ∧
      (¬ ∃ ev, Carries sampleParse otherPayload ev) ∧
      onmessage sampleParse 0 otherPayload streamingWorld = Outcome.done streamingWorld ∧
      streamingWorld.ui.logs ≠ streamingWorld.ui.logs ++ [string otherPayload] := by
  have hs : streamingWorld.ui.logs = [] := rfl
  refine ⟨?_, rfl, ?_, ?_, rfl, ?_⟩
  · rintro ⟨ev, obj, hp, he⟩
    have hobj : obj = number "42" := (Option.some.inj hp).symm
    subst hobj
    cases ev <;> simp [Encodes, getProp] at he
  · rw [hs]; simp
  · rintro ⟨ev, obj, hp, he⟩
    have hobj : obj = object [("type", string "other")] := (Option.some.inj hp).symm
    subst hobj
    have ht : getProp (object [("type", string "other")]) .type = some (string "other") := rfl
    cases ev <;> simp [Encodes, ht] at he
  · rw [hs]; simp

/-- C6, amended: for every payload the handler does not raise: an exception thrown
inside its `try` block is caught.  A payload on which `JSON.parse` throws, or which
parses to `null`, completes with its raw text appended as the new last log line and
nothing else changed.  A payload that parses to a value other than `null` whose
`type` is none of `log`, `result`, `error`, `done` completes with the world
unchanged. -/
theorem onmessage_fallback (parse : String → Option JSValue) (src : Nat) (data : String)
    (w : World) :
    onmessage parse src data w ≠ .raised ∧
      (parse data = none →
        onmessage parse src data w =
          .done { w with ui := { w.ui with logs := w.ui.logs ++ [string data] } }) ∧
      (parse data = some null →
        onmessage parse src data w =
          .done { w with ui := { w.ui with logs := w.ui.logs ++ [string data] } }) ∧
      (∀ obj ty, parse data = some obj → getProp obj .type = some ty →
        strictEq ty "log" = false → strictEq ty "result" = false →
        strictEq ty "error" = false → strictEq ty "done" = false →
        onmessage parse src data w = .done w) := by
  refine ⟨?_, fun h => ?_, fun h => ?_, fun obj ty hp ht h1 h2 h3 h4 => ?_⟩
  · unfold onmessage
    split
    · simp [onmessageCatch]
    · split <;> simp [onmessageCatch]
  · simp [onmessage, h, onmessageCatch, appendLog]
  · simp [onmessage, h, onmessageTry, getProp, onmessageCatch, appendLog]
  · simp [onmessage, hp, onmessageTry, ht, h1, h2, h3, h4]

/-- C6 as amended, at the payloads `not json`, `null` and an event of type `other`,
and at an `error` event whose template fails in the render: none raises. -/
theorem onmessage_fallback_witness :
    sampleParse "not json" = none ∧
      onmessage sampleParse 0 "not json" streamingWorld =
        Outcome.done
          { streamingWorld with
            ui := { streamingWorld.ui with logs := [string "not json"] } } ∧
      sampleParse "null" = some null ∧
      onmessage sampleParse 0 "null" streamingWorld =
        Outcome.done
          { streamingWorld with ui := { streamingWorld.ui with logs := [string "null"] } } ∧
      onmessage sampleParse 0 otherPayload streamingWorld = Outcome.done streamingWorld ∧
      onmessage sampleParse 0 unprintablePayload streamingWorld ≠ Outcome.raised :=
  ⟨rfl, ((onmessage_fallback sampleParse 0 "not json" streamingWorld).2.1 rfl).trans rfl,
    rfl, ((onmessage_fallback sampleParse 0 "null" streamingWorld).2.2.1 rfl).trans rfl,
    (onmessage_fallback sampleParse 0 otherPayload streamingWorld).2.2.2 _ _ rfl rfl
      rfl rfl rfl rfl,
    (onmessage_fallback sampleParse 0 unprintablePayload streamingWorld).1⟩

/-! ## The launcher -/

theorem handleSubmitResume_frame (ai : Bool) (resp : Option JSValue) (w : World) :
    (handleSubmitResume ai resp w).ui.logs = w.ui.logs ∧
      (handleSubmitResume ai resp w).ui.code = w.ui.code ∧
      (handleSubmitResume ai resp w).ui.useAI = w.ui.useAI := by
  unfold handleSubmitResume
  split
  · exact ⟨rfl, rfl, rfl⟩
  · split
    · split <;> exact ⟨rfl, rfl, rfl⟩
    · split
      · exact ⟨rfl, rfl, rfl⟩
      · split <;> exact ⟨rfl, rfl, rfl⟩

/-- C7: in every state the page can reach at most one source is open.  `handleSubmit`
runs only from the button, which is enabled only while `loading` is false, and in
every such reachable state every source constructed before has been closed: `close()`
was called on it by its `done` or `onerror` handler.  An automatic submission whose
launch succeeds then constructs one source after the closed ones, so exactly one
source is open afterwards, the new one, and `es` holds it. -/
theorem handleSubmit_one_source (parse : String → Option JSValue) (c : Config)
    (hr : Reachable parse c) :
    openCount c.world.sources ≤ 1 ∧
      (c.world.ui.loading = false →
        openCount c.world.sources = 0 ∧
          (∀ i, isOpenAt i c.world.sources = false) ∧
          ∀ (data tid : JSValue) (t : String), c.world.ui.useAI = false →
            getProp data .task_id = some tid → toStr tid = some t →
            (handleSubmit (some data) c.world).sources =
                c.world.sources ++ [{ url := streamUrlBase ++ t, closed := false }] ∧
              openCount (handleSubmit (some data) c.world).sources = 1 ∧
              (handleSubmit (some data) c.world).ui.es = some c.world.sources.length) := by
  refine ⟨(inv_reachable parse c hr).1, fun hl => ?_⟩
  have h0 : openCount c.world.sources = 0 := ((inv_reachable parse c hr).2.1 hl).1
  refine ⟨h0, fun i => isOpenAt_of_openCount_zero i _ h0, fun data tid t hai hd ht => ?_⟩
  have hsrc : (handleSubmit (some data) c.world).sources =
      c.world.sources ++ [{ url := streamUrlBase ++ t, closed := false }] := by
    simp [handleSubmit, handleSubmitResume, handleSubmitStart, hai, hd, ht]
  refine ⟨hsrc, ?_, ?_⟩
  · rw [hsrc, openCount_append_open, h0]
  · simp [handleSubmit, handleSubmitResume, handleSubmitStart, hai, hd, ht]

/-- C7 at a second submission, made after the stream of the scenario has ended: the
first source has been closed and only the new one is open. -/
theorem handleSubmit_one_source_witness :
    Reachable sampleParse { world := finishedWorld, awaiting := none } ∧
      finishedWorld.ui.loading = false ∧
      finishedWorld.sources.length = 1 ∧
      (handleSubmit (some (object [("task_id", string "def456")])) finishedWorld).sources.length =
        2 ∧
      openCount
          (handleSubmit (some (object [("task_id", string "def456")])) finishedWorld).sources =
        1 :=
  ⟨reachable_finishedWorld, rfl, rfl, rfl,
    (((handleSubmit_one_source sampleParse _ reachable_finishedWorld).2 rfl).2.2
      (object [("task_id", string "def456")]) (string "def456") "def456" rfl rfl rfl).2.1⟩

/-- C8: in every state and either mode, when `handleSubmit` reaches its `await` the
session has been reset: the log list is empty, the artifact is the empty string, the
task id is `null` and `loading` is true, while `code` and `useAI` are as before; the
one request issued is the POST of the chosen mode with the current source text.
Whatever the outcome of that request, the call ends with none of the earlier log
lines and with `code` and `useAI` still as before. -/
theorem handleSubmit_resets (w : World) :
    (handleSubmitStart w).ui.logs = [] ∧
      (handleSubmitStart w).ui.testCode = string "" ∧
      (handleSubmitStart w).ui.taskId = null ∧
      (handleSubmitStart w).ui.loading = true ∧
      (handleSubmitStart w).ui.code = w.ui.code ∧
      (handleSubmitStart w).ui.useAI = w.ui.useAI ∧
      (handleSubmitStart w).posts =
        w.posts ++ [(if w.ui.useAI then aiUrl else generateUrl, w.ui.code)] ∧
      (∀ resp : Option JSValue,
        (handleSubmit resp w).ui.logs = [] ∧
          (handleSubmit resp w).ui.code = w.ui.code ∧
          (handleSubmit resp w).ui.useAI = w.ui.useAI) := by
  refine ⟨rfl, rfl, rfl, rfl, rfl, rfl, rfl, fun resp => ?_⟩
  obtain ⟨hl, hc, hu⟩ := handleSubmitResume_frame w.ui.useAI resp (handleSubmitStart w)
  exact ⟨hl, hc, hu⟩

/-- C9: in every state with `useAI` true, a submission whose POST resolves with a body
whose `test_code` is the string `t` ends with artifact `t`, an empty log list, a `null`
task id and `loading` false; the only request issued is the one POST to
`/generate-ai-tests` with the current source text, which is not the automatic
  endpoint; no source is constructed, `es` is not written and no alert is shown. -/
theorem handleSubmit_ai (w : World) (data : JSValue) (t : String)
    (hai : w.ui.useAI = true) (ht : getProp data .test_code = some (string t)) :
    handleSubmit (some data) w =
        { w with
          ui := { w.ui with testCode := string t, logs := [], taskId := null, loading := false }
          posts := w.posts ++ [(aiUrl, w.ui.code)] } ∧
      aiUrl ≠ generateUrl := by
  refine ⟨?_, by decide⟩
  simp [handleSubmit, handleSubmitResume, handleSubmitStart, resetSession, hai, ht]

/-- C9 at the scenario of the specification. -/
theorem handleSubmit_ai_witness :
    assistedWorld.ui.useAI = true ∧
      (handleSubmit (some (object [("test_code", string "def test_x(): assert True")]))
          assistedWorld).ui.testCode = string "def test_x(): assert True" ∧
      (handleSubmit (some (object [("test_code", string "def test_x(): assert True")]))
          assistedWorld).ui.logs = [] ∧
      (handleSubmit (some (object [("test_code", string "def test_x(): assert True")]))
          assistedWorld).ui.loading = false ∧
      (handleSubmit (some (object [("test_code", string "def test_x(): assert True")]))
          assistedWorld).sources = [] :=
  have h := (handleSubmit_ai assistedWorld
    (object [("test_code", string "def test_x(): assert True")])
    "def test_x(): assert True" rfl rfl).1
  ⟨rfl, by rw [h], by rw [h], by rw [h], by rw [h]; rfl⟩

/-- C10: in every state the page can reach with the button enabled, and in either
mode, a submission whose POST is rejected is caught by the `catch` block: the alert
`Error starting generation task` is shown and `loading` ends false; nothing of a
session is left: the log list and the artifact are empty, the task id and `es` are
`null`; no source is constructed and none is open. -/
theorem handleSubmit_failure (parse : String → Option JSValue) (c : Config)
    (hr : Reachable parse c) (hl : c.world.ui.loading = false) :
    handleSubmit none c.world =
        { c.world with
          ui := { c.world.ui with
            testCode := string "", logs := [], taskId := null, loading := false, es := none }
          posts := c.world.posts ++
            [(if c.world.ui.useAI then aiUrl else generateUrl, c.world.ui.code)]
          alerts := c.world.alerts ++ ["Error starting generation task"]
          consoleErrors := c.world.consoleErrors + 1 } ∧
      (handleSubmit none c.world).sources = c.world.sources ∧
      openCount (handleSubmit none c.world).sources = 0 := by
  obtain ⟨h0, hes, _⟩ := (inv_reachable parse c hr).2.1 hl
  have heq : handleSubmit none c.world =
      { c.world with
        ui := { c.world.ui with
          testCode := string "", logs := [], taskId := null, loading := false,
          es := c.world.ui.es }
        posts := c.world.posts ++
          [(if c.world.ui.useAI then aiUrl else generateUrl, c.world.ui.code)]
        alerts := c.world.alerts ++ ["Error starting generation task"]
        consoleErrors := c.world.consoleErrors + 1 } := rfl
  refine ⟨?_, rfl, h0⟩
  rw [heq, hes]

/-- C10 at a failed submission made after the automatic scenario has ended: the line,
the artifact and the task id of that session are gone. -/
theorem handleSubmit_failure_witness :
    Reachable sampleParse { world := finishedWorld, awaiting := none } ∧
      finishedWorld.ui.loading = false ∧
      finishedWorld.ui.logs = [string "collecting..."] ∧
      (handleSubmit none finishedWorld).ui.logs = [] ∧
      (handleSubmit none finishedWorld).ui.testCode = string "" ∧
      (handleSubmit none finishedWorld).ui.taskId = null ∧
      (handleSubmit none finishedWorld).ui.es = none ∧
      (handleSubmit none finishedWorld).ui.loading = false ∧
      (handleSubmit none finishedWorld).alerts = ["Error starting generation task"] ∧
      openCount (handleSubmit none finishedWorld).sources = 0 :=
  have h := handleSubmit_failure sampleParse _ reachable_finishedWorld rfl
  ⟨reachable_finishedWorld, rfl, rfl, rfl, rfl, rfl, rfl, rfl, rfl, h.2.2⟩

end PyTestGenie
